import Mathlib

/-! The exec-process shim (`shim/exec.go`).

A shallow embedding of `shim/exec.go`: the request-to-spec translation
(`processFromRequest`, `rlimits`), the constructor `newExecProcess` and the
methods `Pid`, `Status` and `Exited` of `execProcess`.

Conventions of the embedding.

* Go `int` values (`id`, `pid`, `status`) are `Int`; `uint32` and `uint64`
  values (`uid`, `gid`, rlimit bounds) are `Nat`.  None of them is ever the
  operand of an arithmetic operation in this file, they are only stored and
  copied, so no wrap-around can occur.
* A Go slice is a `Slice`: either the nil slice or a slice with a list of
  elements.  A pointer that the source tests against `nil` (`r.User`,
  `socket`, `e.io`, `e.console`) is an `Option`.  The entries of `r.Rlimits`
  are pointers that the source dereferences without a test, so they are
  `Option`s as well and dereferencing an absent one is a run-time panic.
* The collaborators that are called but not defined in `exec.go`
  (`os.Getwd`, `runc.NewConsoleSocket`, `runc.NewPipeIO`, the runtime `Exec`
  call, `ReceiveMaster`, `copyConsole`, `copyPipes`, `runc.ReadPidFile`) are
  parameters: an `Env` gives the result of each of them.  Every one of them is
  called at most once by `newExecProcess`, so a result per collaborator
  describes every behaviour they can show during one call.
* The filesystem is the list of the paths that exist.  A successful
  `runc.NewConsoleSocket` creates the file at its path, a successful runtime
  `Exec` leaves the pid file at the path it was handed, and `os.Remove`
  removes the file at its path.
* `Exited` blocks in `Wait` until the relay copy tasks have finished.  The
  number of copy tasks that finish while a call of `Exited` lasts is a
  parameter of the call; a call for which they are too few never returns.
-/

namespace shim

/-- A Go `error` value that is not nil; only its identity matters. -/
abbrev Err := String

/-! ## Go slices -/

/-- A Go slice: the nil slice, or a slice holding `elems` (possibly none). -/
inductive Slice (α : Type) where
  | nil : Slice α
  | mk (elems : List α) : Slice α
  deriving DecidableEq, Repr

namespace Slice

/-- The elements a `for ... range` loop visits, in order. -/
def elems {α : Type} : Slice α → List α
  | nil => []
  | mk xs => xs

/-- Go `len`. -/
def len {α : Type} (s : Slice α) : Nat := s.elems.length

/-- Go `append(s, x)`: the result is never the nil slice. -/
def append {α : Type} (s : Slice α) (x : α) : Slice α := mk (s.elems ++ [x])

end Slice

/-! ## The request and the runtime process specification -/

namespace apishim

/-- The message `User` of the shim API. -/
structure User where
  Uid : Nat
  Gid : Nat
  AdditionalGids : Slice Nat
  deriving DecidableEq, Repr

/-- The message `Rlimit` of the shim API (`Typ` is the Go field `Type`). -/
structure Rlimit where
  Typ : String
  Hard : Nat
  Soft : Nat
  deriving DecidableEq, Repr

/-- The message `ExecRequest` of the shim API.  `User` is a pointer (absent when
nil); `Rlimits` is a slice of pointers. -/
structure ExecRequest where
  Terminal : Bool
  Stdin : String
  Stdout : String
  Stderr : String
  User : Option User
  Args : Slice String
  Env : Slice String
  Cwd : String
  Capabilities : Slice String
  Rlimits : Slice (Option Rlimit)
  NoNewPrivileges : Bool
  ApparmorProfile : String
  SelinuxLabel : String
  deriving DecidableEq, Repr

end apishim

namespace specs

/-- The runtime-spec `User`: a struct value, not a pointer. -/
structure User where
  UID : Nat
  GID : Nat
  AdditionalGids : Slice Nat
  deriving DecidableEq, Repr

/-- The runtime-spec `LinuxRlimit` (`Typ` is the Go field `Type`). -/
structure LinuxRlimit where
  Typ : String
  Hard : Nat
  Soft : Nat
  deriving DecidableEq, Repr

/-- The fields of the runtime-spec `Process` that `processFromRequest` sets. -/
structure Process where
  Terminal : Bool
  User : User
  Rlimits : Slice LinuxRlimit
  Args : Slice String
  Env : Slice String
  Cwd : String
  Capabilities : Slice String
  NoNewPrivileges : Bool
  ApparmorProfile : String
  SelinuxLabel : String
  deriving DecidableEq, Repr

end specs

/-- The composite literal of the loop body of `rlimits`, for a present entry:
`Type`, `Hard` and `Soft` are copied from the fields of the same name. -/
def rlimitOf (r : apishim.Rlimit) : specs.LinuxRlimit :=
  { Typ := r.Typ, Hard := r.Hard, Soft := r.Soft }

/-- The body of the loop of `rlimits`: dereference the entry (a panic, `none`,
when the pointer is nil) and append the translated limit to `o`. -/
def rlimitsStep (o : Slice specs.LinuxRlimit) (r : Option apishim.Rlimit) :
    Option (Slice specs.LinuxRlimit) :=
  match r with
  | none => none
  | some r => some (o.append (rlimitOf r))

/-- The function `rlimits`: the named result `o` starts as the nil slice and the
loop appends one entry per element of `rr`.  `none` is a nil-pointer panic. -/
def rlimits (rr : Slice (Option apishim.Rlimit)) : Option (Slice specs.LinuxRlimit) :=
  rr.elems.foldlM rlimitsStep Slice.nil

/-- The local `user` of `processFromRequest`: declared as the zero value and
filled in only when `r.User` is not nil. -/
def userFromRequest (u : Option apishim.User) : specs.User :=
  match u with
  | none => { UID := 0, GID := 0, AdditionalGids := Slice.nil }
  | some u => { UID := u.Uid, GID := u.Gid, AdditionalGids := u.AdditionalGids }

/-- The function `processFromRequest`; `none` is the panic of `rlimits`. -/
def processFromRequest (r : apishim.ExecRequest) : Option specs.Process :=
  match rlimits r.Rlimits with
  | none => none
  | some o =>
    some
      { Terminal := r.Terminal
        User := userFromRequest r.User
        Rlimits := o
        Args := r.Args
        Env := r.Env
        Cwd := r.Cwd
        Capabilities := r.Capabilities
        NoNewPrivileges := r.NoNewPrivileges
        ApparmorProfile := r.ApparmorProfile
        SelinuxLabel := r.SelinuxLabel }

/-- Every entry of the request's rlimit slice is a non-nil pointer. -/
def rlimitsPresent (r : apishim.ExecRequest) : Prop :=
  ∀ x ∈ r.Rlimits.elems, x ≠ none

instance (r : apishim.ExecRequest) : Decidable (rlimitsPresent r) := by
  unfold rlimitsPresent; infer_instance

/-! ## Paths and the filesystem -/

namespace filepath

/-- The elements of a path: the pieces between its separators `/`. -/
def splitSlash : List Char → List (List Char)
  | [] => [[]]
  | c :: cs =>
    match splitSlash cs with
    | [] => [[c]]
    | w :: ws => if c = '/' then [] :: w :: ws else (c :: w) :: ws

/-- One element of the scan of `Clean`; `stack` holds the elements kept so far,
last first.  Empty and `.` elements are dropped; `..` removes the element
before it when there is one, is dropped at the root, and is kept otherwise. -/
def cleanStep (rooted : Bool) (stack : List (List Char)) (comp : List Char) :
    List (List Char) :=
  if comp = [] ∨ comp = ['.'] then stack
  else if comp = ['.', '.'] then
    match stack with
    | top :: rest => if top = ['.', '.'] then comp :: stack else rest
    | [] => if rooted then [] else [comp]
  else comp :: stack

/-- The Go standard library function `filepath.Clean` on Unix. -/
def Clean (path : String) : String :=
  match path.data with
  | [] => "."
  | c :: cs =>
    let rooted : Bool := c = '/'
    let comps := ((splitSlash (c :: cs)).foldl (cleanStep rooted) []).reverse
    if rooted then String.mk ('/' :: List.intercalate ['/'] comps)
    else if comps = [] then "."
    else String.mk (List.intercalate ['/'] comps)

/-- The Go standard library function `filepath.Join` on Unix: the elements
from the first non-empty one on are joined with `/` and the result is cleaned;
it is empty when every element is. -/
def Join (elem : List String) : String :=
  match elem.dropWhile (fun e => e = "") with
  | [] => ""
  | es => Clean (String.intercalate "/" es)

end filepath

/-- The filesystem: the paths that exist. -/
abbrev FS := List String

namespace os

/-- The function `os.Remove`, taken to succeed (the caller discards its
error): afterwards no file exists at `path`. -/
def Remove (fs : FS) (path : String) : FS := fs.filter (fun p => p ≠ path)

end os

/-! ## Collaborator types -/

namespace console

/-- A pty master, `console.Console`. -/
structure Console where
  fd : Nat
  deriving DecidableEq, Repr

end console

/-- A pipe set, the value `runc.NewPipeIO` returns as a `runc.IO`. -/
structure runc.IO where
  fd : Nat
  deriving DecidableEq, Repr

namespace runc

/-- The console socket `runc.NewConsoleSocket` returns; `Path()` is `path`. -/
structure ConsoleSocket where
  path : String
  deriving DecidableEq, Repr

/-- The options of the runtime `Exec` call (`Io` is the Go field `IO`). -/
structure ExecOpts where
  PidFile : String
  ConsoleSocket : Option ConsoleSocket
  Io : Option runc.IO
  Detach : Bool
  deriving DecidableEq, Repr

/-- The function `runc.NewConsoleSocket` on the filesystem: a successful call
binds a socket at `path`, which creates the file; a failed call leaves the
filesystem as it was. -/
def bindSocket (fs : FS) (path : String) : FS := if path ∈ fs then fs else path :: fs

end runc

/-- The fields of `initProcess` that `newExecProcess` reads: the container id
(`runc` is the runtime handle, whose calls are given by the `Env`). -/
structure initProcess where
  id : String
  deriving DecidableEq, Repr

/-- The struct `execProcess`.  `WaitGroup` is the counter of the embedded
`sync.WaitGroup`: the number of relay copy tasks that have not finished. -/
structure execProcess where
  WaitGroup : Nat
  id : Int
  console : Option console.Console
  io : Option runc.IO
  status : Int
  pid : Int
  parent : initProcess
  deriving DecidableEq, Repr

/-! ## The collaborators of `newExecProcess` -/

/-- What each collaborator answers during one call of `newExecProcess`.  An
`Option Err` is a Go `error` (`none` is nil: success).  `copyConsole` and
`copyPipes` answer, on success, the number of copy tasks they have registered
on the wait group they were handed.  `PidFileWritten` tells whether the
runtime, during a successful `Exec`, wrote the pid file it was asked for. -/
structure Env where
  Getwd : Except Err String
  NewConsoleSocket : Option Err
  NewPipeIO : Except Err runc.IO
  Exec : Option Err
  ReceiveMaster : Except Err console.Console
  copyConsole : Except Err Nat
  copyPipes : Except Err Nat
  ReadPidFile : Except Err Int
  PidFileWritten : Bool

/-- The runtime `Exec` call on the filesystem.  The call is handed the path
`opts.PidFile`.  After a successful call a file exists at that path when the
runtime wrote it, and also when the read of the pid file answers a pid, since
only a file that exists can be read; otherwise the filesystem is as it was.
A failed call is taken to leave the filesystem as it was. -/
def Env.afterExec (env : Env) (fs : FS) (pidfile : String) : FS :=
  if env.PidFileWritten || env.ReadPidFile.isOk then
    (if pidfile ∈ fs then fs else pidfile :: fs)
  else fs

/-- A call of a collaborator, with its arguments. -/
inductive Call where
  | Getwd
  | NewConsoleSocket (path : String)
  | NewPipeIO (uid gid : Int)
  | Exec (id : String) (spec : specs.Process) (opts : runc.ExecOpts)
  | ReceiveMaster (socket : runc.ConsoleSocket)
  | copyConsole (c : console.Console) (stdin stdout stderr : String)
  | copyPipes (io : Option runc.IO) (stdin stdout stderr : String)
  | ReadPidFile (path : String)
  deriving DecidableEq, Repr

/-- A call that was made and whether it succeeded. -/
structure Step where
  call : Call
  ok : Bool
  deriving DecidableEq, Repr

/-- How a call of `newExecProcess` ends: it returns the pair
`(process, error)`, or it panics. -/
inductive Outcome where
  | returned (p : Option execProcess) (err : Option Err)
  | panicked
  deriving DecidableEq, Repr

/-- One execution of `newExecProcess`: how it ended, the filesystem it left and
the collaborator calls it made, in order. -/
structure Run where
  outcome : Outcome
  fs : FS
  steps : List Step
  deriving DecidableEq, Repr

/-- Put the calls `pre`, made earlier, before those of `run`. -/
def Run.after (pre : List Step) (run : Run) : Run :=
  { run with steps := pre ++ run.steps }

/-- The statement `return nil, err`. -/
def returnErr (fs : FS) (err : Err) : Run :=
  { outcome := Outcome.returned none (some err), fs := fs, steps := [] }

/-- Lines 77 to 82 of `newExecProcess`: read the pid file, store the pid and
return the process. -/
def readPid (env : Env) (fs : FS) (e : execProcess) (opts : runc.ExecOpts) : Run :=
  match env.ReadPidFile with
  | Except.error err => (returnErr fs err).after [⟨Call.ReadPidFile opts.PidFile, false⟩]
  | Except.ok pid =>
    { outcome := Outcome.returned (some { e with pid := pid }) none
      fs := fs
      steps := [⟨Call.ReadPidFile opts.PidFile, true⟩] }

/-- Lines 63 to 76 of `newExecProcess`: start the relay, from the console
received over `socket` when there is one and from the pipe set otherwise. -/
def startRelay (env : Env) (fs : FS) (r : apishim.ExecRequest) (e : execProcess)
    (socket : Option runc.ConsoleSocket) (io : Option runc.IO) (opts : runc.ExecOpts) : Run :=
  match socket with
  | some sock =>
    match env.ReceiveMaster with
    | Except.error err => (returnErr fs err).after [⟨Call.ReceiveMaster sock, false⟩]
    | Except.ok c =>
      let e := { e with console := some c }
      match env.copyConsole with
      | Except.error err =>
        (returnErr fs err).after
          [⟨Call.ReceiveMaster sock, true⟩, ⟨Call.copyConsole c r.Stdin r.Stdout r.Stderr, false⟩]
      | Except.ok n =>
        (readPid env fs { e with WaitGroup := e.WaitGroup + n } opts).after
          [⟨Call.ReceiveMaster sock, true⟩, ⟨Call.copyConsole c r.Stdin r.Stdout r.Stderr, true⟩]
  | none =>
    match env.copyPipes with
    | Except.error err =>
      (returnErr fs err).after [⟨Call.copyPipes io r.Stdin r.Stdout r.Stderr, false⟩]
    | Except.ok n =>
      (readPid env fs { e with WaitGroup := e.WaitGroup + n } opts).after
        [⟨Call.copyPipes io r.Stdin r.Stdout r.Stderr, true⟩]

/-- Lines 54 to 82 of `newExecProcess`: build the options, evaluate
`processFromRequest(r)` (which may panic), call the runtime, which leaves the
pid file, and go on. -/
def launch (env : Env) (fs : FS) (r : apishim.ExecRequest) (parent : initProcess)
    (e : execProcess) (socket : Option runc.ConsoleSocket) (io : Option runc.IO)
    (pidfile : String) : Run :=
  let opts : runc.ExecOpts :=
    { PidFile := pidfile, ConsoleSocket := socket, Io := io, Detach := true }
  match processFromRequest r with
  | none => { outcome := Outcome.panicked, fs := fs, steps := [] }
  | some spec =>
    match env.Exec with
    | some err => (returnErr fs err).after [⟨Call.Exec parent.id spec opts, false⟩]
    | none =>
      (startRelay env (env.afterExec fs opts.PidFile) r e socket io opts).after
        [⟨Call.Exec parent.id spec opts, true⟩]

/-- The function `newExecProcess`.  The deferred `os.Remove(socket.Path())` is
registered once the console socket exists and runs when the rest of the body
has ended, however it ended. -/
def newExecProcess (env : Env) (fs : FS) (r : apishim.ExecRequest) (parent : initProcess)
    (id : Int) : Run :=
  match env.Getwd with
  | Except.error err => (returnErr fs err).after [⟨Call.Getwd, false⟩]
  | Except.ok cwd =>
    let e : execProcess :=
      { WaitGroup := 0, id := id, console := none, io := none, status := 0, pid := 0
        parent := parent }
    let pidfile := filepath.Join [cwd, toString id ++ ".pid"]
    if r.Terminal then
      let path := filepath.Join [cwd, "pty.sock"]
      match env.NewConsoleSocket with
      | some err =>
        (returnErr fs err).after [⟨Call.Getwd, true⟩, ⟨Call.NewConsoleSocket path, false⟩]
      | none =>
        let socket : runc.ConsoleSocket := { path := path }
        let body := launch env (runc.bindSocket fs path) r parent e (some socket) none pidfile
        ({ body with fs := os.Remove body.fs socket.path }).after
          [⟨Call.Getwd, true⟩, ⟨Call.NewConsoleSocket path, true⟩]
    else
      match env.NewPipeIO with
      | Except.error err =>
        (returnErr fs err).after [⟨Call.Getwd, true⟩, ⟨Call.NewPipeIO 0 0, false⟩]
      | Except.ok io =>
        (launch env fs r parent { e with io := some io } none (some io) pidfile).after
          [⟨Call.Getwd, true⟩, ⟨Call.NewPipeIO 0 0, true⟩]

/-- The method `Pid`. -/
def execProcess.Pid (e : execProcess) : Int := e.pid

/-- The method `Status`. -/
def execProcess.Status (e : execProcess) : Int := e.status

/-! ## `Exited` -/

/-- What `Exited` does, as seen from outside: it stores the status, a relay
copy task finishes (`Done` on the wait group), `Wait` returns, a pipe set is
closed. -/
inductive Event where
  | recordStatus (status : Int)
  | relayDone
  | waitReturned
  | closeIO (io : runc.IO)
  deriving DecidableEq, Repr

/-- One execution of `Exited`: whether it returned (it does not when `Wait`
blocks for ever), the process state it left, and its events in order, each
with the process state right after it. -/
structure ExitedRun where
  returned : Bool
  e : execProcess
  trace : List (Event × execProcess)
  deriving DecidableEq, Repr

/-- The events of an execution of `Exited`, in order. -/
def ExitedRun.log (run : ExitedRun) : List Event := run.trace.map Prod.fst

/-- The call `e.Wait()` of `sync.WaitGroup`: it returns when the counter is
zero and otherwise blocks until a copy task finishes and decrements it.
`done` is the number of copy tasks that finish while the call lasts; when they
are too few the call never returns (`false`). -/
def Wait : Nat → execProcess → Bool × execProcess × List (Event × execProcess)
  | done, e =>
    if e.WaitGroup = 0 then (true, e, [(Event.waitReturned, e)])
    else
      match done with
      | 0 => (false, e, [])
      | d + 1 =>
        let e1 := { e with WaitGroup := e.WaitGroup - 1 }
        let rest := Wait d e1
        (rest.1, rest.2.1, (Event.relayDone, e1) :: rest.2.2)

/-- The method `Exited`. -/
def execProcess.Exited (done : Nat) (e : execProcess) (status : Int) : ExitedRun :=
  let e := { e with status := status }
  let w := Wait done e
  if w.1 then
    match w.2.1.io with
    | some io =>
      { returned := true, e := w.2.1
        trace := (Event.recordStatus status, e) :: w.2.2 ++ [(Event.closeIO io, w.2.1)] }
    | none => { returned := true, e := w.2.1, trace := (Event.recordStatus status, e) :: w.2.2 }
  else { returned := false, e := w.2.1, trace := (Event.recordStatus status, e) :: w.2.2 }

/-- The first `n` copy tasks of `e` finishing, one after the other: each is a
`relayDone` that leaves the counter one lower, the one at index `i` at
`e.WaitGroup - (i + 1)`. -/
def relayDones (e : execProcess) (n : Nat) : List (Event × execProcess) :=
  (List.range n).map
    (fun i => (Event.relayDone, { e with WaitGroup := e.WaitGroup - (i + 1) }))

/-- The number of times a pipe set is closed in a log. -/
def closes (log : List Event) : Nat :=
  (log.filter (fun ev => match ev with | Event.closeIO _ => true | _ => false)).length

/-! ## Reading an execution of `newExecProcess` -/

/-- The path of the console rendezvous endpoint the call allocated: the
argument of its `runc.NewConsoleSocket` call, when it made one. -/
def Run.endpoint (run : Run) : Option String :=
  run.steps.findSome? (fun st =>
    match st.call with
    | Call.NewConsoleSocket path => some path
    | _ => none)

/-- The setup calls of the path the request selects succeed: the
working-directory lookup and then the creation of the console socket
(terminal mode) or the allocation of the pipe set. -/
def setupOk (env : Env) (r : apishim.ExecRequest) : Bool :=
  env.Getwd.isOk && (if r.Terminal then env.NewConsoleSocket.isNone else env.NewPipeIO.isOk)

/-- The relay calls of the path the request selects succeed: the reception of
the master and `copyConsole` (terminal mode), or `copyPipes`. -/
def relayOk (env : Env) (r : apishim.ExecRequest) : Bool :=
  if r.Terminal then env.ReceiveMaster.isOk && env.copyConsole.isOk else env.copyPipes.isOk

/-- Every collaborator call of the path the request selects succeeds. -/
def allSucceeded (env : Env) (r : apishim.ExecRequest) : Bool :=
  setupOk env r && env.Exec.isNone && relayOk env r && env.ReadPidFile.isOk

/-! ## Concrete inputs -/

/-- A pipe-mode request with a user, two rlimits and one capability. -/
def trueRequest : apishim.ExecRequest :=
  { Terminal := false
    Stdin := "/run/fifo/in"
    Stdout := "/run/fifo/out"
    Stderr := "/run/fifo/err"
    User := some { Uid := 1000, Gid := 100, AdditionalGids := Slice.mk [4, 24] }
    Args := Slice.mk ["/bin/true"]
    Env := Slice.mk ["PATH=/bin"]
    Cwd := "/"
    Capabilities := Slice.mk ["CAP_KILL"]
    Rlimits := Slice.mk [some ⟨"RLIMIT_NOFILE", 2048, 1024⟩, some ⟨"RLIMIT_NPROC", 64, 32⟩]
    NoNewPrivileges := true
    ApparmorProfile := "default"
    SelinuxLabel := "" }

/-- The request `trueRequest` without user, rlimits and capabilities. -/
def bareRequest : apishim.ExecRequest :=
  { trueRequest with User := none, Rlimits := Slice.nil, Capabilities := Slice.nil }

/-- The request `bareRequest` with a user that is present and all zero. -/
def rootRequest : apishim.ExecRequest :=
  { bareRequest with User := some { Uid := 0, Gid := 0, AdditionalGids := Slice.nil } }

/-- A pipe-mode process whose relay still runs two copy tasks. -/
def pipeProcess : execProcess :=
  { WaitGroup := 2, id := 1, console := none, io := some { fd := 3 }, status := 0, pid := 4242
    parent := { id := "c1" } }

/-- A terminal-mode process whose relay still runs one copy task. -/
def terminalProcess : execProcess :=
  { WaitGroup := 1, id := 2, console := some { fd := 5 }, io := none, status := 0, pid := 4243
    parent := { id := "c1" } }

/-- The request `trueRequest` in terminal mode. -/
def ttyRequest : apishim.ExecRequest := { trueRequest with Terminal := true }

/-- The init process of container `c1`. -/
def initC1 : initProcess := { id := "c1" }

/-- Collaborators that all succeed. -/
def okEnv : Env :=
  { Getwd := Except.ok "/run/shim/c1"
    NewConsoleSocket := none
    NewPipeIO := Except.ok { fd := 3 }
    Exec := none
    ReceiveMaster := Except.ok { fd := 5 }
    copyConsole := Except.ok 1
    copyPipes := Except.ok 3
    ReadPidFile := Except.ok 4242
    PidFileWritten := true }

/-- Collaborators that all succeed, with a pid file that holds `0`. -/
def zeroPidEnv : Env := { okEnv with ReadPidFile := Except.ok 0 }

/-- Collaborators of which the creation of the console socket fails. -/
def busySocketEnv : Env := { okEnv with NewConsoleSocket := some "bind: address already in use" }

/-- Collaborators of which the runtime `Exec` call fails. -/
def execFailsEnv : Env :=
  { okEnv with Exec := some "exec failed", PidFileWritten := false }

/-- Collaborators of which the read of the pid file fails. -/
def noPidFileEnv : Env :=
  { okEnv with
    ReadPidFile := Except.error "no such file or directory", PidFileWritten := false }

/-- The process `newExecProcess` returns for `trueRequest` and id 7 when the
collaborators are `okEnv`. -/
def createdPipeProcess : execProcess :=
  { WaitGroup := 3, id := 7, console := none, io := some { fd := 3 }, status := 0
    pid := 4242, parent := initC1 }

/-- The process `newExecProcess` returns for `ttyRequest` and id 8 when the
collaborators are `okEnv`. -/
def createdTtyProcess : execProcess :=
  { WaitGroup := 1, id := 8, console := some { fd := 5 }, io := none, status := 0
    pid := 4242, parent := initC1 }

/-! ## The translation of the request -/

/-- The elements of `append(s, x)`. -/
theorem Slice.elems_append {α : Type} (s : Slice α) (x : α) :
    (s.append x).elems = s.elems ++ [x] := rfl

/-- The loop of `rlimits` over entries that are all present ends without a
panic; it has appended the translation of each entry, in order, and has left
the accumulator as it was when there was no entry. -/
theorem foldlM_rlimitsStep (l : List (Option apishim.Rlimit)) :
    ∀ o : Slice specs.LinuxRlimit, (∀ x ∈ l, x ≠ none) →
      ∃ o1, l.foldlM rlimitsStep o = some o1 ∧
        o1.elems.map some = o.elems.map some ++ l.map (Option.map rlimitOf) ∧
        (l = [] → o1 = o) := by
  induction l with
  | nil => intro o _; exact ⟨o, rfl, by simp, fun _ => rfl⟩
  | cons x xs ih =>
    intro o h
    cases x with
    | none => exact absurd rfl (h none (List.mem_cons_self _ _))
    | some a =>
      obtain ⟨o1, h1, h2, _⟩ :=
        ih (o.append (rlimitOf a)) (fun y hy => h y (List.mem_cons_of_mem _ hy))
      refine ⟨o1, ?_, ?_, fun hnil => absurd hnil (List.cons_ne_nil _ _)⟩
      · simpa [List.foldlM, rlimitsStep] using h1
      · simp [h2, Slice.elems_append]

/-- The function `rlimits` on entries that are all present. -/
theorem rlimits_present (rr : Slice (Option apishim.Rlimit)) (h : ∀ x ∈ rr.elems, x ≠ none) :
    ∃ o, rlimits rr = some o ∧ o.elems.map some = rr.elems.map (Option.map rlimitOf) ∧
      (rr.elems = [] → o = Slice.nil) := by
  obtain ⟨o, h1, h2, h3⟩ := foldlM_rlimitsStep rr.elems Slice.nil h
  exact ⟨o, h1, by simpa [Slice.elems] using h2, h3⟩

/-- Claim C10.  For a request whose rlimit entries are all present,
`processFromRequest` returns a process specification (it does not panic) in
which terminal, args, env, cwd, capabilities, no-new-privileges, the AppArmor
profile and the SELinux label are those of the request, a present user has its
uid, gid and additional gids copied, and the rlimits have the length of the
request's, the entry at each index carrying the type, the soft and the hard
value of the request's entry at that index. -/
theorem processFromRequest_copies_fields (r : apishim.ExecRequest) (h : rlimitsPresent r) :
    ∃ p, processFromRequest r = some p ∧
      p.Terminal = r.Terminal ∧ p.Args = r.Args ∧ p.Env = r.Env ∧ p.Cwd = r.Cwd ∧
      p.Capabilities = r.Capabilities ∧ p.NoNewPrivileges = r.NoNewPrivileges ∧
      p.ApparmorProfile = r.ApparmorProfile ∧ p.SelinuxLabel = r.SelinuxLabel ∧
      (∀ u, r.User = some u →
        p.User.UID = u.Uid ∧ p.User.GID = u.Gid ∧ p.User.AdditionalGids = u.AdditionalGids) ∧
      p.Rlimits.len = r.Rlimits.len ∧
      (∀ (i : Nat) (x : apishim.Rlimit), r.Rlimits.elems[i]? = some (some x) →
        ∃ y : specs.LinuxRlimit, p.Rlimits.elems[i]? = some y ∧
          y.Typ = x.Typ ∧ y.Soft = x.Soft ∧ y.Hard = x.Hard) := by
  obtain ⟨o, h1, h2, _⟩ := rlimits_present r.Rlimits h
  simp only [processFromRequest, h1]
  refine ⟨_, rfl, rfl, rfl, rfl, rfl, rfl, rfl, rfl, rfl, ?_, ?_, ?_⟩
  · intro u hu
    simp [hu, userFromRequest]
  · have := congrArg List.length h2
    simpa [Slice.len] using this
  · intro i x hx
    have h3 : (o.elems.map some)[i]? = (r.Rlimits.elems.map (Option.map rlimitOf))[i]? := by
      rw [h2]
    simp only [List.getElem?_map, hx, Option.map_some'] at h3
    cases hy : o.elems[i]? with
    | none => simp [hy] at h3
    | some y =>
      simp only [hy, Option.map_some', Option.some.injEq] at h3
      exact ⟨y, rfl, by subst h3; exact ⟨rfl, rfl, rfl⟩⟩

/-- Claim C10 at `trueRequest`, whose two rlimit entries are present. -/
theorem processFromRequest_copies_fields_witness :
    rlimitsPresent trueRequest ∧
    ∃ p, processFromRequest trueRequest = some p ∧
      p.Terminal = trueRequest.Terminal ∧ p.Args = trueRequest.Args ∧
      p.Env = trueRequest.Env ∧ p.Cwd = trueRequest.Cwd ∧
      p.Capabilities = trueRequest.Capabilities ∧
      p.NoNewPrivileges = trueRequest.NoNewPrivileges ∧
      p.ApparmorProfile = trueRequest.ApparmorProfile ∧
      p.SelinuxLabel = trueRequest.SelinuxLabel ∧
      (∀ u, trueRequest.User = some u →
        p.User.UID = u.Uid ∧ p.User.GID = u.Gid ∧ p.User.AdditionalGids = u.AdditionalGids) ∧
      p.Rlimits.len = trueRequest.Rlimits.len ∧
      (∀ (i : Nat) (x : apishim.Rlimit), trueRequest.Rlimits.elems[i]? = some (some x) →
        ∃ y : specs.LinuxRlimit, p.Rlimits.elems[i]? = some y ∧
          y.Typ = x.Typ ∧ y.Soft = x.Soft ∧ y.Hard = x.Hard) :=
  ⟨by decide, processFromRequest_copies_fields trueRequest (by decide)⟩

/-- Claim C8, as the code has it.  A request without rlimits is translated with
the nil rlimit slice, and the capabilities are the request's own slice, nil
when it is nil; but a request without user is translated with the zero user
(uid 0, gid 0, nil additional gids), which is also the translation of the same
request with a user present whose uid and gid are 0 and whose additional gids
are nil. -/
theorem processFromRequest_absent_fields (r : apishim.ExecRequest) :
    (r.Rlimits.elems = [] →
      ∃ p, processFromRequest r = some p ∧ p.Rlimits = Slice.nil ∧ p.Rlimits.len = 0) ∧
    (∀ p, processFromRequest r = some p → p.Capabilities = r.Capabilities) ∧
    (∀ p, processFromRequest r = some p → r.User = none →
      p.User = { UID := 0, GID := 0, AdditionalGids := Slice.nil }) ∧
    processFromRequest { r with User := none } =
      processFromRequest
        { r with User := some { Uid := 0, Gid := 0, AdditionalGids := Slice.nil } } := by
  refine ⟨?_, ?_, ?_, rfl⟩
  · intro h
    have hr : rlimits r.Rlimits = some Slice.nil := by unfold rlimits; rw [h]; rfl
    simp only [processFromRequest, hr]
    exact ⟨_, rfl, rfl, rfl⟩
  · intro p hp
    unfold processFromRequest at hp
    cases hr : rlimits r.Rlimits with
    | none => simp [hr] at hp
    | some o =>
      simp only [hr, Option.some.injEq] at hp
      subst hp; rfl
  · intro p hp hu
    unfold processFromRequest at hp
    cases hr : rlimits r.Rlimits with
    | none => simp [hr] at hp
    | some o =>
      simp only [hr, Option.some.injEq] at hp
      subst hp
      simp [hu, userFromRequest]

/-- Claim C8 at `bareRequest`, which has no rlimits, no capabilities and no
user. -/
theorem processFromRequest_absent_fields_witness :
    (bareRequest.Rlimits.elems = [] →
      ∃ p, processFromRequest bareRequest = some p ∧ p.Rlimits = Slice.nil ∧
        p.Rlimits.len = 0) ∧
    (∀ p, processFromRequest bareRequest = some p →
      p.Capabilities = bareRequest.Capabilities) ∧
    (∀ p, processFromRequest bareRequest = some p → bareRequest.User = none →
      p.User = { UID := 0, GID := 0, AdditionalGids := Slice.nil }) ∧
    processFromRequest { bareRequest with User := none } =
      processFromRequest
        { bareRequest with User := some { Uid := 0, Gid := 0, AdditionalGids := Slice.nil } } :=
  processFromRequest_absent_fields bareRequest

/-- Claim C8 fails as stated: `bareRequest` has no user, `rootRequest` is the
same request with a user present whose uid and gid are 0 and who has no
additional gids, and the two have the same translation, in which the user is
the zero-valued entry. -/
theorem processFromRequest_absent_user_is_zero_user :
    bareRequest.User = none ∧
    rootRequest = { bareRequest with
      User := some { Uid := 0, Gid := 0, AdditionalGids := Slice.nil } } ∧
    bareRequest ≠ rootRequest ∧
    processFromRequest bareRequest = processFromRequest rootRequest ∧
    (processFromRequest bareRequest).map (fun p => p.User) =
      some { UID := 0, GID := 0, AdditionalGids := Slice.nil } := by
  decide

/-! ## `Exited` -/

/-- The snapshots of one more copy task finishing. -/
theorem relayDones_succ (e : execProcess) (n : Nat) :
    relayDones e (n + 1) =
      (Event.relayDone, { e with WaitGroup := e.WaitGroup - 1 }) ::
        relayDones { e with WaitGroup := e.WaitGroup - 1 } n := by
  simp only [relayDones, List.range_succ_eq_map, List.map_cons, List.map_map]
  refine congrArg _ (List.map_congr_left fun i _ => ?_)
  have : e.WaitGroup - 1 - (i + 1) = e.WaitGroup - (i + 1 + 1) := by omega
  simp [this]

/-- The events of copy tasks finishing. -/
theorem map_fst_relayDones (e : execProcess) (n : Nat) :
    (relayDones e n).map Prod.fst = List.replicate n Event.relayDone := by
  simp [relayDones, List.map_map, Function.comp_def]

/-- The call `Wait` returns when the copy tasks that finish are at least as
many as the counter: they all finish, and the counter is then zero. -/
theorem Wait_returns (done : Nat) :
    ∀ e : execProcess, e.WaitGroup ≤ done →
      Wait done e =
        (true, { e with WaitGroup := 0 },
          relayDones e e.WaitGroup ++ [(Event.waitReturned, { e with WaitGroup := 0 })]) := by
  induction done with
  | zero =>
    intro e h
    have h0 : e.WaitGroup = 0 := by omega
    cases e
    simp only at h0
    subst h0
    simp [Wait, relayDones]
  | succ d ih =>
    intro e h
    by_cases h0 : e.WaitGroup = 0
    · cases e
      simp only at h0
      subst h0
      simp [Wait, relayDones]
    · have hd : ({ e with WaitGroup := e.WaitGroup - 1 } : execProcess).WaitGroup ≤ d := by
        simp only; omega
      obtain ⟨k, hk⟩ : ∃ k, e.WaitGroup = k + 1 := ⟨e.WaitGroup - 1, by omega⟩
      rw [Wait, if_neg h0]
      dsimp only
      rw [ih _ hd]
      rw [hk, relayDones_succ, ← hk]
      simp [hk]

/-- The call `Wait` never returns when fewer copy tasks finish than the
counter holds: those that finish leave the counter above zero. -/
theorem Wait_blocks (done : Nat) :
    ∀ e : execProcess, done < e.WaitGroup →
      Wait done e =
        (false, { e with WaitGroup := e.WaitGroup - done }, relayDones e done) := by
  induction done with
  | zero =>
    intro e h
    have h0 : e.WaitGroup ≠ 0 := by omega
    rw [Wait, if_neg h0]
    simp [relayDones]
  | succ d ih =>
    intro e h
    have h0 : e.WaitGroup ≠ 0 := by omega
    have hd : d < ({ e with WaitGroup := e.WaitGroup - 1 } : execProcess).WaitGroup := by
      simp only; omega
    rw [Wait, if_neg h0]
    dsimp only
    rw [ih _ hd, relayDones_succ]
    have : e.WaitGroup - 1 - d = e.WaitGroup - (d + 1) := by omega
    simp [this]

/-- A log that ends with its only close has nothing but that close after the
events before it. -/
theorem close_last (front pre post : List Event) (io0 io : runc.IO)
    (hfront : ∀ io1, Event.closeIO io1 ∉ front)
    (h : front ++ [Event.closeIO io0] = pre ++ Event.closeIO io :: post) :
    pre = front ∧ post = [] := by
  rcases List.append_eq_append_iff.1 h with ⟨a, ha, hb⟩ | ⟨c, hc, hd⟩
  · cases a with
    | nil =>
      simp only [List.nil_append, List.cons.injEq] at hb
      exact ⟨by simpa using ha, hb.2.symm⟩
    | cons x xs =>
      have := congrArg List.length hb
      simp at this
  · cases c with
    | nil =>
      simp only [List.nil_append, List.cons.injEq] at hd
      exact ⟨by simpa using hc.symm, hd.2⟩
    | cons x xs =>
      simp only [List.cons_append, List.cons.injEq] at hd
      exact absurd (by rw [hc, ← hd.1]; simp) (hfront io)

/-- An `Exited` whose `Wait` returns: the status is stored, the copy tasks
finish, `Wait` returns, and the pipe set the process holds, if any, is closed. -/
theorem Exited_returns (done : Nat) (e : execProcess) (s : Int) (h : e.WaitGroup ≤ done) :
    e.Exited done s =
      { returned := true
        e := { e with status := s, WaitGroup := 0 }
        trace := (Event.recordStatus s, { e with status := s }) ::
          (relayDones { e with status := s } e.WaitGroup ++
            (Event.waitReturned, { e with status := s, WaitGroup := 0 }) ::
              (match e.io with
                | some io => [(Event.closeIO io, { e with status := s, WaitGroup := 0 })]
                | none => [])) } := by
  have hw := Wait_returns done { e with status := s } h
  unfold execProcess.Exited
  simp only [hw, if_true]
  cases e.io <;> simp

/-- An `Exited` whose `Wait` blocks has stored the status and closed nothing. -/
theorem Exited_blocks (done : Nat) (e : execProcess) (s : Int) (h : done < e.WaitGroup) :
    e.Exited done s =
      { returned := false
        e := { e with status := s, WaitGroup := e.WaitGroup - done }
        trace := (Event.recordStatus s, { e with status := s }) ::
          relayDones { e with status := s } done } := by
  have hw := Wait_blocks done { e with status := s } h
  unfold execProcess.Exited
  simp [hw]

/-- The events of an `Exited` whose `Wait` returns. -/
theorem Exited_returns_log (done : Nat) (e : execProcess) (s : Int) (h : e.WaitGroup ≤ done) :
    (e.Exited done s).log =
      Event.recordStatus s ::
        (List.replicate e.WaitGroup Event.relayDone ++ Event.waitReturned ::
          (match e.io with
            | some io => [Event.closeIO io]
            | none => [])) := by
  rw [Exited_returns done e s h]
  cases e.io <;> simp [ExitedRun.log, map_fst_relayDones]

/-- The events of an `Exited` whose `Wait` blocks. -/
theorem Exited_blocks_log (done : Nat) (e : execProcess) (s : Int) (h : done < e.WaitGroup) :
    (e.Exited done s).log = Event.recordStatus s :: List.replicate done Event.relayDone := by
  rw [Exited_blocks done e s h]
  simp [ExitedRun.log, map_fst_relayDones]

/-- Claim C1.  `Exited(s)` returns exactly when the copy tasks that finish
while it waits are all those the wait group counts; once it has returned,
`Status()` is `s` and the wait group is drained, whatever the process held
before. -/
theorem Exited_then_Status (done : Nat) (e : execProcess) (s : Int) :
    ((e.Exited done s).returned = true ↔ e.WaitGroup ≤ done) ∧
    ((e.Exited done s).returned = true →
      (e.Exited done s).e.Status = s ∧ (e.Exited done s).e.WaitGroup = 0) := by
  by_cases h : e.WaitGroup ≤ done
  · rw [Exited_returns done e s h]
    exact ⟨⟨fun _ => h, fun _ => rfl⟩, fun _ => ⟨rfl, rfl⟩⟩
  · rw [Exited_blocks done e s (by omega)]
    exact ⟨⟨fun hf => by simp at hf, fun hf => absurd hf h⟩, fun hf => by simp at hf⟩

/-- Claim C1 at `pipeProcess`, whose two copy tasks finish, and at the runtime
reporting exit status 0. -/
theorem Exited_then_Status_witness :
    (pipeProcess.Exited 2 0).returned = true ∧
    (pipeProcess.Exited 2 0).e.Status = 0 ∧ (pipeProcess.Exited 2 0).e.WaitGroup = 0 :=
  ⟨by decide, (Exited_then_Status 2 pipeProcess 0).2 (by decide)⟩

/-- Claim C2.  When the copy tasks all finish, `Exited(s)` returns, leaves the
process with status `s` and a drained wait group, and its events are, in this
order and each with the process state right after it: the status `s` is
stored (the counter untouched), the copy tasks finish one by one, `Wait`
returns with the counter at zero, and then the pipe set is closed, once, when
the process holds one, and nothing is closed when it holds none.  Every close
is the last event, has the return of `Wait` before it and happens in a state
with status `s` and a drained wait group; every event happens in a state with
status `s`.  When the copy tasks do not all finish, `Exited(s)` does not
return: it has stored `s`, the counter is what the finished tasks left, and
nothing is closed. -/
theorem Exited_order (done : Nat) (e : execProcess) (s : Int) :
    (e.WaitGroup ≤ done →
      (e.Exited done s).returned = true ∧
      (e.Exited done s).e = { e with status := s, WaitGroup := 0 } ∧
      (e.Exited done s).trace =
        (Event.recordStatus s, { e with status := s }) ::
          (relayDones { e with status := s } e.WaitGroup ++
            (Event.waitReturned, { e with status := s, WaitGroup := 0 }) ::
              (match e.io with
                | some io => [(Event.closeIO io, { e with status := s, WaitGroup := 0 })]
                | none => [])) ∧
      (e.Exited done s).log =
        Event.recordStatus s ::
          (List.replicate e.WaitGroup Event.relayDone ++ Event.waitReturned ::
            (match e.io with
              | some io => [Event.closeIO io]
              | none => [])) ∧
      closes (e.Exited done s).log = (if e.io.isSome then 1 else 0)) ∧
    (done < e.WaitGroup →
      (e.Exited done s).returned = false ∧
      (e.Exited done s).e = { e with status := s, WaitGroup := e.WaitGroup - done } ∧
      (e.Exited done s).trace =
        (Event.recordStatus s, { e with status := s }) ::
          relayDones { e with status := s } done ∧
      (e.Exited done s).log = Event.recordStatus s :: List.replicate done Event.relayDone ∧
      closes (e.Exited done s).log = 0) ∧
    (∀ (pre post : List Event) (io : runc.IO),
      (e.Exited done s).log = pre ++ Event.closeIO io :: post →
        pre = Event.recordStatus s ::
          (List.replicate e.WaitGroup Event.relayDone ++ [Event.waitReturned]) ∧
        post = [] ∧ e.io = some io) ∧
    (∀ (io : runc.IO) (st : execProcess), (Event.closeIO io, st) ∈ (e.Exited done s).trace →
      e.io = some io ∧ st.status = s ∧ st.WaitGroup = 0 ∧
      (Event.waitReturned, st) ∈ (e.Exited done s).trace) ∧
    (∀ (ev : Event) (st : execProcess), (ev, st) ∈ (e.Exited done s).trace → st.status = s) := by
  have hc : ∀ n, closes (Event.recordStatus s :: List.replicate n Event.relayDone) = 0 := by
    intro n
    simp [closes]
  have hmem : ∀ (n : Nat) (io1 : runc.IO),
      Event.closeIO io1 ∉ Event.recordStatus s :: List.replicate n Event.relayDone := by
    intro n io1 hin
    simp [List.mem_replicate] at hin
  refine ⟨?_, ?_, ?_, ?_, ?_⟩
  · intro h
    rw [Exited_returns_log done e s h, Exited_returns done e s h]
    refine ⟨rfl, rfl, rfl, rfl, ?_⟩
    cases hio : e.io with
    | none => simp [closes]
    | some io => simp [closes]
  · intro h
    rw [Exited_blocks_log done e s h, Exited_blocks done e s h]
    exact ⟨rfl, rfl, rfl, rfl, hc done⟩
  · intro pre post io hlog
    by_cases h : e.WaitGroup ≤ done
    · rw [Exited_returns_log done e s h] at hlog
      cases hio : e.io with
      | none =>
        simp only [hio] at hlog
        have hin : Event.closeIO io ∈ pre ++ Event.closeIO io :: post := by simp
        rw [← hlog] at hin
        simp [List.mem_replicate] at hin
      | some io0 =>
        simp only [hio] at hlog
        have hfront : ∀ io1, Event.closeIO io1 ∉
            Event.recordStatus s ::
              (List.replicate e.WaitGroup Event.relayDone ++ [Event.waitReturned]) := by
          intro io1 hin
          simp [List.mem_replicate] at hin
        have hsplit := close_last
          (Event.recordStatus s ::
            (List.replicate e.WaitGroup Event.relayDone ++ [Event.waitReturned]))
          pre post io0 io hfront (by simpa using hlog)
        have hio2 : io0 = io := by
          rw [hsplit.1, hsplit.2] at hlog
          simpa using hlog
        exact ⟨hsplit.1, hsplit.2, by rw [hio2]⟩
    · rw [Exited_blocks_log done e s (by omega)] at hlog
      have hin : Event.closeIO io ∈ pre ++ Event.closeIO io :: post := by simp
      rw [← hlog] at hin
      exact absurd hin (hmem done io)
  · intro io st hin
    by_cases h : e.WaitGroup ≤ done
    · rw [Exited_returns done e s h] at hin ⊢
      cases hio : e.io with
      | none => simp [hio, relayDones] at hin
      | some io0 =>
        simp only [hio] at hin ⊢
        simp [relayDones] at hin
        obtain ⟨h1, h2⟩ := hin
        subst h1 h2
        simp
    · rw [Exited_blocks done e s (by omega)] at hin
      simp [relayDones] at hin
  · intro ev st hin
    by_cases h : e.WaitGroup ≤ done
    · rw [Exited_returns done e s h] at hin
      cases hio : e.io with
      | none =>
        simp only [hio, relayDones] at hin
        simp at hin
        rcases hin with h1 | h1 | h1
        · rw [h1.2]
        · obtain ⟨i, _, _, h2⟩ := h1
          rw [← h2]
        · rw [h1.2]
      | some io0 =>
        simp only [hio, relayDones] at hin
        simp at hin
        rcases hin with h1 | h1 | h1 | h1
        · rw [h1.2]
        · obtain ⟨i, _, _, h2⟩ := h1
          rw [← h2]
        · rw [h1.2]
        · rw [h1.2]
    · rw [Exited_blocks done e s (by omega)] at hin
      simp only [relayDones] at hin
      simp at hin
      rcases hin with h1 | h1
      · rw [h1.2]
      · obtain ⟨i, _, _, h2⟩ := h1
        rw [← h2]

/-- Claim C2 at `pipeProcess`, whose two copy tasks finish: the status is
stored first, the counter goes down to zero, and the close comes last; at
`terminalProcess`, which closes nothing; and at `pipeProcess` when only one
copy task finishes. -/
theorem Exited_order_witness :
    (pipeProcess.Exited 2 7).e = { pipeProcess with status := 7, WaitGroup := 0 } ∧
    (pipeProcess.Exited 2 7).trace =
      [(Event.recordStatus 7, { pipeProcess with status := 7 }),
        (Event.relayDone, { pipeProcess with status := 7, WaitGroup := 1 }),
        (Event.relayDone, { pipeProcess with status := 7, WaitGroup := 0 }),
        (Event.waitReturned, { pipeProcess with status := 7, WaitGroup := 0 }),
        (Event.closeIO { fd := 3 }, { pipeProcess with status := 7, WaitGroup := 0 })] ∧
    (terminalProcess.Exited 1 7).log =
      [Event.recordStatus 7, Event.relayDone, Event.waitReturned] ∧
    (pipeProcess.Exited 1 7).returned = false ∧
    (pipeProcess.Exited 1 7).e = { pipeProcess with status := 7, WaitGroup := 1 } ∧
    (pipeProcess.Exited 1 7).log = [Event.recordStatus 7, Event.relayDone] := by
  have h1 := (Exited_order 2 pipeProcess 7).1 (by decide)
  have h2 := (Exited_order 1 terminalProcess 7).1 (by decide)
  have h3 := (Exited_order 1 pipeProcess 7).2.1 (by decide)
  exact ⟨h1.2.1, h1.2.2.1, h2.2.2.2.1, h3.1, h3.2.1, h3.2.2.2.1⟩

/-- Claim C7, as the code has it.  After an `Exited(s1)` that has returned, a
second call `Exited(s2)` returns without waiting for any copy task, stores
`s2`, so that `Status()` is `s2`, changes nothing else in the process, and
closes the pipe set again when the process holds one: the two calls have then
closed it twice; they have closed nothing when it holds none. -/
theorem Exited_twice (d1 d2 : Nat) (e : execProcess) (s1 s2 : Int)
    (h : (e.Exited d1 s1).returned = true) :
    ((e.Exited d1 s1).e.Exited d2 s2).returned = true ∧
    ((e.Exited d1 s1).e.Exited d2 s2).e.Status = s2 ∧
    ((e.Exited d1 s1).e.Exited d2 s2).e = { (e.Exited d1 s1).e with status := s2 } ∧
    ((e.Exited d1 s1).e.Exited d2 s2).log =
      Event.recordStatus s2 :: Event.waitReturned ::
        (match e.io with
          | some io => [Event.closeIO io]
          | none => []) ∧
    closes ((e.Exited d1 s1).log ++ ((e.Exited d1 s1).e.Exited d2 s2).log) =
      (if e.io.isSome then 2 else 0) := by
  have hle : e.WaitGroup ≤ d1 := by
    by_contra hlt
    rw [Exited_blocks d1 e s1 (by omega)] at h
    cases h
  have he1 : (e.Exited d1 s1).e = { e with status := s1, WaitGroup := 0 } := by
    rw [Exited_returns d1 e s1 hle]
  have hl1 := Exited_returns_log d1 e s1 hle
  have h2 := Exited_returns d2 { e with status := s1, WaitGroup := 0 } s2 (Nat.zero_le _)
  have hl2 := Exited_returns_log d2 { e with status := s1, WaitGroup := 0 } s2 (Nat.zero_le _)
  rw [he1, hl1, hl2, h2]
  refine ⟨rfl, rfl, rfl, by simp, ?_⟩
  cases hio : e.io with
  | none => simp [closes]
  | some io => simp [closes]

/-- Claim C7 at `pipeProcess`: after `Exited(1)` and `Exited(2)` the status is 2
and the pipe set has been closed twice. -/
theorem Exited_twice_witness :
    (pipeProcess.Exited 2 1).returned = true ∧
    ((pipeProcess.Exited 2 1).e.Exited 0 2).e.Status = 2 ∧
    closes ((pipeProcess.Exited 2 1).log ++ ((pipeProcess.Exited 2 1).e.Exited 0 2).log) = 2 :=
  have h := Exited_twice 2 0 pipeProcess 1 2 (by decide)
  ⟨by decide, h.2.1, h.2.2.2.2⟩

/-- Claim C7 fails as stated: on `pipeProcess`, `Exited(1)` followed by
`Exited(2)` does not leave the state `Exited(1)` alone leaves, `Status()` is 2
and not 1, and the pipe set has been closed twice. -/
theorem Exited_twice_not_noop :
    (pipeProcess.Exited 2 1).returned = true ∧
    (pipeProcess.Exited 2 1).e.Status = 1 ∧
    closes (pipeProcess.Exited 2 1).log = 1 ∧
    ((pipeProcess.Exited 2 1).e.Exited 0 2).returned = true ∧
    ((pipeProcess.Exited 2 1).e.Exited 0 2).e ≠ (pipeProcess.Exited 2 1).e ∧
    ((pipeProcess.Exited 2 1).e.Exited 0 2).e.Status = 2 ∧
    closes ((pipeProcess.Exited 2 1).log ++ ((pipeProcess.Exited 2 1).e.Exited 0 2).log) = 2 := by
  decide

/-! ## `newExecProcess` -/

/-- A request whose rlimit entries are all present is translated without a
panic. -/
theorem processFromRequest_of_present (r : apishim.ExecRequest) (h : rlimitsPresent r) :
    ∃ p, processFromRequest r = some p := by
  obtain ⟨o, h1, _⟩ := rlimits_present r.Rlimits h
  simp only [processFromRequest, h1]
  exact ⟨_, rfl⟩

/-- The three ways a call of `newExecProcess` ends.  It panics, when the setup
succeeded and the translation of the request dereferences an absent rlimit
entry; or it returns an error and no process, when a call on the path failed;
or it returns a process and no error, when every call on the path succeeded:
the process then has the pid read from the pid file, and the pipe set
(pipe mode) or the console (terminal mode) the collaborators answered. -/
theorem newExecProcess_cases (env : Env) (fs : FS) (r : apishim.ExecRequest)
    (parent : initProcess) (id : Int) :
    ((newExecProcess env fs r parent id).outcome = Outcome.panicked ∧
      processFromRequest r = none ∧ setupOk env r = true ∧
      ∀ st ∈ (newExecProcess env fs r parent id).steps, st.ok = true) ∨
    (∃ err, (newExecProcess env fs r parent id).outcome = Outcome.returned none (some err) ∧
      allSucceeded env r = false ∧
      (setupOk env r = true →
        env.Exec = some err ∨ (env.Exec = none ∧ relayOk env r = false) ∨
        (env.Exec = none ∧ relayOk env r = true ∧ env.ReadPidFile = Except.error err))) ∨
    (∃ e, (newExecProcess env fs r parent id).outcome = Outcome.returned (some e) none ∧
      allSucceeded env r = true ∧ env.ReadPidFile = Except.ok e.pid ∧
      (∃ p, processFromRequest r = some p) ∧
      (∀ st ∈ (newExecProcess env fs r parent id).steps, st.ok = true) ∧
      (r.Terminal = false →
        e.console = none ∧ ∃ io, env.NewPipeIO = Except.ok io ∧ e.io = some io) ∧
      (r.Terminal = true →
        e.io = none ∧ ∃ c, env.ReceiveMaster = Except.ok c ∧ e.console = some c)) := by
  obtain ⟨gw, ncs, npio, ex, rm, cc, cp, rpf, pw⟩ := env
  have hp : True := trivial
  have hT : True := trivial
  cases gw with
  | error e0 =>
    simp [newExecProcess, launch, startRelay, readPid, returnErr, Run.after, hT, hp,
      allSucceeded, setupOk, relayOk, Except.isOk, Except.toBool]
  | ok cwd =>
    clear hT
    cases hT : r.Terminal with
    | true =>
      cases ncs with
      | some e1 =>
        simp [newExecProcess, launch, startRelay, readPid, returnErr, Run.after, hT, hp,
          allSucceeded, setupOk, relayOk, Except.isOk, Except.toBool]
      | none =>
        clear hp
        cases hp : processFromRequest r with
        | none =>
          simp [newExecProcess, launch, startRelay, readPid, returnErr, Run.after, hT, hp,
            allSucceeded, setupOk, relayOk, Except.isOk, Except.toBool]
        | some spec =>
          cases ex with
          | some e2 =>
            simp [newExecProcess, launch, startRelay, readPid, returnErr, Run.after, hT, hp,
              allSucceeded, setupOk, relayOk, Except.isOk, Except.toBool]
          | none =>
            cases rm with
            | error e3 =>
              simp [newExecProcess, launch, startRelay, readPid, returnErr, Run.after, hT, hp,
                allSucceeded, setupOk, relayOk, Except.isOk, Except.toBool]
            | ok c =>
              cases cc with
              | error e4 =>
                simp [newExecProcess, launch, startRelay, readPid, returnErr, Run.after, hT, hp,
                  allSucceeded, setupOk, relayOk, Except.isOk, Except.toBool]
              | ok n =>
                cases rpf with
                | error e5 =>
                  simp [newExecProcess, launch, startRelay, readPid, returnErr, Run.after, hT, hp,
                    allSucceeded, setupOk, relayOk, Except.isOk, Except.toBool]
                | ok pid =>
                  simp [newExecProcess, launch, startRelay, readPid, returnErr, Run.after, hT, hp,
                    allSucceeded, setupOk, relayOk, Except.isOk, Except.toBool]
    | false =>
      cases npio with
      | error e1 =>
        simp [newExecProcess, launch, startRelay, readPid, returnErr, Run.after, hT, hp,
          allSucceeded, setupOk, relayOk, Except.isOk, Except.toBool]
      | ok io =>
        clear hp
        cases hp : processFromRequest r with
        | none =>
          simp [newExecProcess, launch, startRelay, readPid, returnErr, Run.after, hT, hp,
            allSucceeded, setupOk, relayOk, Except.isOk, Except.toBool]
        | some spec =>
          cases ex with
          | some e2 =>
            simp [newExecProcess, launch, startRelay, readPid, returnErr, Run.after, hT, hp,
              allSucceeded, setupOk, relayOk, Except.isOk, Except.toBool]
          | none =>
            cases cp with
            | error e4 =>
              simp [newExecProcess, launch, startRelay, readPid, returnErr, Run.after, hT, hp,
                allSucceeded, setupOk, relayOk, Except.isOk, Except.toBool]
            | ok n =>
              cases rpf with
              | error e5 =>
                simp [newExecProcess, launch, startRelay, readPid, returnErr, Run.after, hT, hp,
                  allSucceeded, setupOk, relayOk, Except.isOk, Except.toBool]
              | ok pid =>
                simp [newExecProcess, launch, startRelay, readPid, returnErr, Run.after, hT, hp,
                  allSucceeded, setupOk, relayOk, Except.isOk, Except.toBool]

/-- Claim C3.  Of a call of `newExecProcess`, for every request, parent and
id and whatever its collaborators answer: when a collaborator call it made
failed, it returns an error and no process; when it returns a process, it
returns no error, every call on the path the request selects succeeded, and
`Pid()` of the process is the value read from the pid file; and for a request
whose rlimit entries are all present it returns a process without error when
every call on the path succeeds and an error without process otherwise, the
error of the runtime `Exec` call when that call is the one that fails and the
error of the pid-file read when that read fails after a successful `Exec`. -/
theorem newExecProcess_error_or_process (env : Env) (fs : FS) (r : apishim.ExecRequest)
    (parent : initProcess) (id : Int) :
    (∀ st ∈ (newExecProcess env fs r parent id).steps, st.ok = false →
      ∃ err, (newExecProcess env fs r parent id).outcome = Outcome.returned none (some err)) ∧
    (∀ e err, (newExecProcess env fs r parent id).outcome = Outcome.returned (some e) err →
      err = none ∧ allSucceeded env r = true ∧ env.ReadPidFile = Except.ok e.Pid ∧
      ∀ st ∈ (newExecProcess env fs r parent id).steps, st.ok = true) ∧
    (rlimitsPresent r →
      (allSucceeded env r = true →
        ∃ e, (newExecProcess env fs r parent id).outcome = Outcome.returned (some e) none) ∧
      (allSucceeded env r = false →
        ∃ err, (newExecProcess env fs r parent id).outcome = Outcome.returned none (some err)) ∧
      (∀ err, setupOk env r = true → env.Exec = some err →
        (newExecProcess env fs r parent id).outcome = Outcome.returned none (some err)) ∧
      (∀ err, setupOk env r = true → env.Exec = none → relayOk env r = true →
        env.ReadPidFile = Except.error err →
        (newExecProcess env fs r parent id).outcome = Outcome.returned none (some err))) := by
  rcases newExecProcess_cases env fs r parent id with
    ⟨ho, hp, hs, hst⟩ | ⟨err0, ho, ha, hwhy⟩ | ⟨e0, ho, ha, hpid, hp, hst, _, _⟩
  · refine ⟨fun st hin hf => ?_, fun e err h => ?_, fun hr => ?_⟩
    · rw [hst st hin] at hf; cases hf
    · rw [ho] at h; cases h
    · obtain ⟨p, hp2⟩ := processFromRequest_of_present r hr
      rw [hp] at hp2; cases hp2
  · refine ⟨fun _ _ _ => ⟨err0, ho⟩, fun e err h => ?_, fun _ => ⟨fun h => ?_, fun _ => ⟨err0, ho⟩,
      fun err hs hex => ?_, fun err hs hex hrel hrd => ?_⟩⟩
    · rw [ho] at h; cases h
    · rw [ha] at h; cases h
    · rcases hwhy hs with h1 | h1 | h1
      · rw [hex] at h1; cases h1; exact ho
      · rw [hex] at h1; cases h1.1
      · rw [hex] at h1; cases h1.1
    · rcases hwhy hs with h1 | h1 | h1
      · rw [hex] at h1; cases h1
      · rw [hrel] at h1; cases h1.2
      · rw [hrd] at h1
        have h2 := h1.2.2
        cases h2; exact ho
  · refine ⟨fun st hin hf => ?_, fun e err h => ?_, fun _ => ⟨fun _ => ⟨e0, ho⟩, fun h => ?_,
      fun err hs hex => ?_, fun err hs hex hrel hrd => ?_⟩⟩
    · rw [hst st hin] at hf; cases hf
    · rw [ho] at h
      cases h
      exact ⟨rfl, ha, hpid, hst⟩
    · rw [ha] at h; cases h
    · simp [allSucceeded, hex] at ha
    · simp [allSucceeded, hrd, Except.isOk, Except.toBool] at ha

/-- Claim C3 at concrete collaborators: with all of them succeeding the call
returns the process with the pid read from the pid file; with a failing
runtime `Exec`, or a failing pid-file read after a successful `Exec`, it
returns that error and no process. -/
theorem newExecProcess_error_or_process_witness :
    (∃ e, (newExecProcess okEnv [] trueRequest initC1 7).outcome =
      Outcome.returned (some e) none) ∧
    (newExecProcess execFailsEnv [] trueRequest initC1 7).outcome =
      Outcome.returned none (some "exec failed") ∧
    (newExecProcess noPidFileEnv [] ttyRequest initC1 7).outcome =
      Outcome.returned none (some "no such file or directory") :=
  ⟨((newExecProcess_error_or_process okEnv [] trueRequest initC1 7).2.2 (by decide)).1
      (by decide),
    ((newExecProcess_error_or_process execFailsEnv [] trueRequest initC1 7).2.2
      (by decide)).2.2.1 _ (by decide) rfl,
    ((newExecProcess_error_or_process noPidFileEnv [] ttyRequest initC1 7).2.2
      (by decide)).2.2.2 _ (by decide) rfl (by decide) rfl⟩

/-- Claim C4, as the code has it.  When `newExecProcess` returns a process,
`Pid()` of that process is the integer the pid-file read produced, so it is
positive exactly when that integer is. -/
theorem newExecProcess_Pid (env : Env) (fs : FS) (r : apishim.ExecRequest)
    (parent : initProcess) (id : Int) (e : execProcess) (err : Option Err)
    (h : (newExecProcess env fs r parent id).outcome = Outcome.returned (some e) err) :
    env.ReadPidFile = Except.ok e.Pid ∧
    (0 < e.Pid ↔ ∃ pid, env.ReadPidFile = Except.ok pid ∧ 0 < pid) := by
  have hpid := ((newExecProcess_cases env fs r parent id).resolve_left
    (fun hc => by rw [hc.1] at h; cases h)).resolve_left
    (fun hc => by obtain ⟨err0, ho, _⟩ := hc; rw [ho] at h; cases h)
  obtain ⟨e0, ho, _, hpid, _⟩ := hpid
  rw [ho] at h
  cases h
  refine ⟨hpid, fun hpos => ⟨e.pid, hpid, hpos⟩, fun ⟨pid, hrd, hpos⟩ => ?_⟩
  rw [hpid] at hrd
  cases hrd
  exact hpos

/-- Claim C4 at collaborators that all succeed, the pid file holding 4242. -/
theorem newExecProcess_Pid_witness :
    (newExecProcess okEnv [] trueRequest initC1 7).outcome =
      Outcome.returned (some createdPipeProcess) none ∧
    okEnv.ReadPidFile = Except.ok createdPipeProcess.Pid ∧
    (0 < createdPipeProcess.Pid ↔ ∃ pid, okEnv.ReadPidFile = Except.ok pid ∧ 0 < pid) :=
  ⟨rfl, newExecProcess_Pid okEnv [] trueRequest initC1 7 createdPipeProcess none rfl⟩

/-- Claim C4 fails as stated: with a pid file that holds `0`, the call returns
a process without error and `Pid()` of that process is 0, which is not
positive. -/
theorem newExecProcess_Pid_zero :
    ∃ e, (newExecProcess zeroPidEnv [] trueRequest initC1 7).outcome =
        Outcome.returned (some e) none ∧
      e.Pid = 0 ∧ ¬ 0 < e.Pid :=
  ⟨{ createdPipeProcess with pid := 0 }, rfl, rfl, by decide⟩

/-- Claim C5.  A process that `newExecProcess` returns holds exactly one of the
two handles: for a request that is not in terminal mode, the pipe set that
`runc.NewPipeIO` answered and no console; for a request in terminal mode, the
console received from the socket and no pipe set. -/
theorem newExecProcess_one_handle (env : Env) (fs : FS) (r : apishim.ExecRequest)
    (parent : initProcess) (id : Int) (e : execProcess) (err : Option Err)
    (h : (newExecProcess env fs r parent id).outcome = Outcome.returned (some e) err) :
    (r.Terminal = false →
      e.console = none ∧ ∃ io, env.NewPipeIO = Except.ok io ∧ e.io = some io) ∧
    (r.Terminal = true →
      e.io = none ∧ ∃ c, env.ReceiveMaster = Except.ok c ∧ e.console = some c) := by
  have hok := ((newExecProcess_cases env fs r parent id).resolve_left
    (fun hc => by rw [hc.1] at h; cases h)).resolve_left
    (fun hc => by obtain ⟨err0, ho, _⟩ := hc; rw [ho] at h; cases h)
  obtain ⟨e0, ho, _, _, _, _, hpipe, htty⟩ := hok
  rw [ho] at h
  cases h
  exact ⟨hpipe, htty⟩

/-- Claim C5 at collaborators that all succeed: the pipe-mode request gets a
process with the pipe set only, the terminal-mode request one with the
console only. -/
theorem newExecProcess_one_handle_witness :
    ((newExecProcess okEnv [] trueRequest initC1 7).outcome =
        Outcome.returned (some createdPipeProcess) none ∧
      createdPipeProcess.console = none ∧
      ∃ io, okEnv.NewPipeIO = Except.ok io ∧ createdPipeProcess.io = some io) ∧
    ((newExecProcess okEnv [] ttyRequest initC1 8).outcome =
        Outcome.returned (some createdTtyProcess) none ∧
      createdTtyProcess.io = none ∧
      ∃ c, okEnv.ReceiveMaster = Except.ok c ∧ createdTtyProcess.console = some c) :=
  ⟨⟨rfl, (newExecProcess_one_handle okEnv [] trueRequest initC1 7 createdPipeProcess none
      rfl).1 rfl⟩,
    ⟨rfl, (newExecProcess_one_handle okEnv [] ttyRequest initC1 8 createdTtyProcess none
      rfl).2 rfl⟩⟩

/-- After `os.Remove` no file exists at the path. -/
theorem not_mem_Remove (fs : FS) (path : String) : path ∉ os.Remove fs path := by
  simp [os.Remove, List.mem_filter]

/-- A pipe-mode call of `newExecProcess` that returns a process leaves the pid
file it has read. -/
theorem newExecProcess_leaves_pid_file (env : Env) (fs : FS) (r : apishim.ExecRequest)
    (parent : initProcess) (id : Int) (cwd : String) (e : execProcess) (err : Option Err)
    (hg : env.Getwd = Except.ok cwd) (hT : r.Terminal = false)
    (h : (newExecProcess env fs r parent id).outcome = Outcome.returned (some e) err) :
    filepath.Join [cwd, toString id ++ ".pid"] ∈ (newExecProcess env fs r parent id).fs := by
  obtain ⟨gw, ncs, npio, ex, rm, cc, cp, rpf, pw⟩ := env
  simp only at hg
  subst hg
  cases npio with
  | error e1 => simp [newExecProcess, hT, returnErr, Run.after] at h
  | ok io =>
    cases hp : processFromRequest r with
    | none => simp [newExecProcess, launch, hT, hp, Run.after] at h
    | some spec =>
      cases ex with
      | some e2 => simp [newExecProcess, launch, hT, hp, returnErr, Run.after] at h
      | none =>
        cases cp with
        | error e4 =>
          simp [newExecProcess, launch, startRelay, hT, hp, returnErr, Run.after] at h
        | ok n =>
          cases rpf with
          | error e5 =>
            simp [newExecProcess, launch, startRelay, readPid, hT, hp, returnErr, Run.after] at h
          | ok pid =>
            simp only [newExecProcess, launch, startRelay, readPid, hT, hp, Run.after,
              Env.afterExec, Except.isOk, Except.toBool, Bool.or_true, if_true]
            by_cases hin : filepath.Join [cwd, toString id ++ ".pid"] ∈ fs
            · simp [hin]
            · simp [hin]

/-- Claim C6, as the code has it.  A call of `newExecProcess` in terminal mode
whose working-directory lookup and console-socket creation succeeded leaves no
file at the rendezvous endpoint (`pty.sock` in the working directory) when it
ends, however it ends after that: with a process, or with the failure of the
runtime `Exec` call, of the reception of the master, of the start of the relay
or of the pid-file read. -/
theorem newExecProcess_endpoint_removed (env : Env) (fs : FS) (r : apishim.ExecRequest)
    (parent : initProcess) (id : Int) (cwd : String) (hg : env.Getwd = Except.ok cwd)
    (hT : r.Terminal = true) (hn : env.NewConsoleSocket = none) :
    filepath.Join [cwd, "pty.sock"] ∉ (newExecProcess env fs r parent id).fs := by
  obtain ⟨gw, ncs, npio, ex, rm, cc, cp, rpf, pw⟩ := env
  simp only at hg hn
  subst hg hn
  simp only [newExecProcess, hT, if_true, Run.after]
  exact not_mem_Remove _ _

/-- Claim C6 at terminal-mode calls in `/run/shim/c1` that have created the
console socket: one whose collaborators all succeed, which leaves the pid file
and no endpoint, one whose runtime `Exec` call fails and one whose pid-file
read fails. -/
theorem newExecProcess_endpoint_removed_witness :
    "/run/shim/c1/pty.sock" ∉ (newExecProcess okEnv [] ttyRequest initC1 7).fs ∧
    (newExecProcess okEnv [] ttyRequest initC1 7).fs = ["/run/shim/c1/7.pid"] ∧
    "/run/shim/c1/pty.sock" ∉ (newExecProcess execFailsEnv [] ttyRequest initC1 7).fs ∧
    "/run/shim/c1/pty.sock" ∉ (newExecProcess noPidFileEnv [] ttyRequest initC1 7).fs :=
  ⟨newExecProcess_endpoint_removed okEnv [] ttyRequest initC1 7 "/run/shim/c1" rfl rfl rfl,
    by decide,
    newExecProcess_endpoint_removed execFailsEnv [] ttyRequest initC1 7 "/run/shim/c1"
      rfl rfl rfl,
    newExecProcess_endpoint_removed noPidFileEnv [] ttyRequest initC1 7 "/run/shim/c1"
      rfl rfl rfl⟩

/-- Claim C6 fails as stated: when a file is at the endpoint path already and
the creation of the console socket fails, the call returns that error and the
file at the endpoint path still exists. -/
theorem newExecProcess_endpoint_left_behind :
    (newExecProcess busySocketEnv ["/run/shim/c1/pty.sock"] ttyRequest initC1 7).outcome =
      Outcome.returned none (some "bind: address already in use") ∧
    (newExecProcess busySocketEnv ["/run/shim/c1/pty.sock"] ttyRequest initC1 7).endpoint =
      some "/run/shim/c1/pty.sock" ∧
    "/run/shim/c1/pty.sock" ∈
      (newExecProcess busySocketEnv ["/run/shim/c1/pty.sock"] ttyRequest initC1 7).fs := by
  decide

/-- Claim C9, as the code has it.  The rendezvous endpoint of a terminal-mode
call is `pty.sock` in the working directory, whatever the id: two such calls
in the same working directory allocate the same endpoint path. -/
theorem newExecProcess_endpoint_shared (env1 env2 : Env) (fs1 fs2 : FS)
    (r1 r2 : apishim.ExecRequest) (parent1 parent2 : initProcess) (id1 id2 : Int)
    (cwd : String) (h1 : env1.Getwd = Except.ok cwd) (h2 : env2.Getwd = Except.ok cwd)
    (ht1 : r1.Terminal = true) (ht2 : r2.Terminal = true) :
    (newExecProcess env1 fs1 r1 parent1 id1).endpoint = some (filepath.Join [cwd, "pty.sock"]) ∧
    (newExecProcess env2 fs2 r2 parent2 id2).endpoint =
      (newExecProcess env1 fs1 r1 parent1 id1).endpoint := by
  have key : ∀ (env : Env) (fs : FS) (r : apishim.ExecRequest) (parent : initProcess)
      (id : Int), env.Getwd = Except.ok cwd → r.Terminal = true →
      (newExecProcess env fs r parent id).endpoint = some (filepath.Join [cwd, "pty.sock"]) := by
    intro env fs r parent id hg hT
    obtain ⟨gw, ncs, npio, ex, rm, cc, cp, rpf, pw⟩ := env
    simp only at hg
    subst hg
    cases ncs <;>
      simp [newExecProcess, hT, returnErr, Run.after, Run.endpoint, List.findSome?]
  rw [key env1 fs1 r1 parent1 id1 h1 ht1, key env2 fs2 r2 parent2 id2 h2 ht2]
  exact ⟨rfl, rfl⟩

/-- Claim C9 at two terminal-mode calls in `/run/shim/c1`, with ids 7 and 8. -/
theorem newExecProcess_endpoint_shared_witness :
    (newExecProcess okEnv [] ttyRequest initC1 7).endpoint =
      some (filepath.Join ["/run/shim/c1", "pty.sock"]) ∧
    (newExecProcess noPidFileEnv [] ttyRequest initC1 8).endpoint =
      (newExecProcess okEnv [] ttyRequest initC1 7).endpoint :=
  newExecProcess_endpoint_shared okEnv noPidFileEnv [] [] ttyRequest ttyRequest initC1 initC1
    7 8 "/run/shim/c1" rfl rfl rfl rfl

/-- Claim C9 fails as stated: two terminal-mode calls in the working directory
`/run/shim/c1` with the different ids 7 and 8 allocate the same endpoint path. -/
theorem newExecProcess_endpoint_not_unique :
    (7 : Int) ≠ 8 ∧
    okEnv.Getwd = Except.ok "/run/shim/c1" ∧ ttyRequest.Terminal = true ∧
    (newExecProcess okEnv [] ttyRequest initC1 7).endpoint = some "/run/shim/c1/pty.sock" ∧
    (newExecProcess okEnv [] ttyRequest initC1 8).endpoint = some "/run/shim/c1/pty.sock" :=
  ⟨by decide, rfl, rfl, by decide, by decide⟩

end shim
